import Mathlib

/-!
Shallow embedding of the insforge-mcp tool-registration, version-gating and
response-normalization layer (src/index.ts and src/shared/tools.ts), together
with theorems settling the specified properties.

Strings are modelled by Lean String; the JavaScript split / prefix operations
are embedded as executable functions over the underlying character lists.
-/

namespace Insforge

/-- Embeds the JavaScript single-character split s.split(sep): the list of
maximal chunks between occurrences of the separator, keeping empty chunks,
never returning an empty list. -/
def splitOnChar (sep : Char) : List Char → List (List Char)
  | [] => [[]]
  | c :: rest =>
    let groups := splitOnChar sep rest
    if c = sep then [] :: groups
    else
      match groups with
      | [] => [[c]]
      | g :: gs => (c :: g) :: gs

/-- Embeds v.replace(/^v/, ...) with the empty replacement: drop one leading
lowercase v if present. -/
def stripLeadingV : List Char → List Char
  | 'v' :: rest => rest
  | l => l

/-- Embeds clean = v.replace(/^v/, ...).split(...)[0] from compareVersions in
src/index.ts: the prefix before the first dash, after stripping a leading v. -/
def cleanVersionChars (v : String) : List Char :=
  (splitOnChar '-' (stripLeadingV v.data)).headD []

/-- Exact decimal value of a digit list, before the rounding that the
JavaScript Number conversion applies; also the spec-side exact reading of a
component. -/
def parseDigits (l : List Char) : Nat :=
  l.foldl (fun n c => n * 10 + (c.toNat - 48)) 0

/-- Number of binary digits of n beyond the 53 significand bits of an
IEEE-754 double, computed by repeated halving; any fuel at least the bit
length of n is exact, and the caller passes 4 * length of the digit chunk,
which bounds the bit length since parseDigits l < 10 ^ length ≤
2 ^ (4 * length) (lemma parseDigits_lt). -/
def excessBitsAux : Nat → Nat → Nat
  | 0, _ => 0
  | fuel + 1, n => if n < 2 ^ 53 then 0 else excessBitsAux fuel (n / 2) + 1

/-- Rounds a natural number to the value of the nearest IEEE-754 double
(round to nearest, ties to even), the value Number holds for an integer
input: below 2 ^ 53 the number itself; above, the e excess low bits are
rounded away at granularity 2 ^ e against the parity of the kept quotient.
The model covers the integer range below double overflow; every theorem
exercises it below 2 ^ 54. -/
def roundToDouble (fuel n : Nat) : Nat :=
  let e := excessBitsAux fuel n
  if e = 0 then n
  else
    let q := n / 2 ^ e
    let r := n % 2 ^ e
    let half := 2 ^ (e - 1)
    let q2 := if half < r ∨ (r = half ∧ q % 2 = 1) then q + 1 else q
    q2 * 2 ^ e

/-- Embeds the composition of Number(s) from .map(Number) with the || 0
coercion applied when the loop in compareVersions reads a component: a
non-empty all-digit component denotes its decimal value as rounded to double
precision by Number; the empty string (Number gives 0) and non-numeric
components (Number gives NaN, which || 0 turns into 0) denote 0. Exotic
JavaScript numeric forms (exponents, spaces, hex) contain characters that
cannot occur in a dot-separated component of a dash-stripped version core
within the dotted-integer domain of the claims. -/
def jsNumberOrZero (l : List Char) : Nat :=
  if !l.isEmpty && l.all (·.isDigit) then
    roundToDouble (4 * l.length) (parseDigits l)
  else 0

/-- Embeds parts = clean.split on dots, then .map(Number) read through || 0:
the numeric components of a version string. -/
def versionComponents (v : String) : List Nat :=
  (splitOnChar '.' (cleanVersionChars v)).map jsNumberOrZero

/-- Embeds the tail of the comparison loop of compareVersions once the first
component list is exhausted: every remaining part1 reads as 0, so the result
is -1 at the first positive remaining part2, else 0. -/
def comparePartsNil : List Nat → Int
  | [] => 0
  | p2 :: rest2 => if 0 < p2 then -1 else comparePartsNil rest2

/-- Embeds the comparison loop of compareVersions in src/index.ts: indices run
to the longer length, missing components read as 0 via || 0, the first
unequal pair decides. -/
def compareParts : List Nat → List Nat → Int
  | [], parts2 => comparePartsNil parts2
  | p1 :: rest1, parts2 =>
    let p2 := parts2.headD 0
    if p1 > p2 then 1
    else if p1 < p2 then -1
    else compareParts rest1 parts2.tail

/-- Embeds compareVersions from src/index.ts (identical copy in
src/shared/tools.ts): strip a leading v and the first-dash suffix, split on
dots into numeric components, compare component-wise with zero padding. -/
def compareVersions (v1 v2 : String) : Int :=
  compareParts (versionComponents v1) (versionComponents v2)

/-- A non-empty all-digit component string. -/
def isDigitChunk (l : List Char) : Bool :=
  !l.isEmpty && l.all (·.isDigit)

/-- The domain of claim C1: after stripping the optional leading v and the
optional dash suffix, the core is a dotted-integer string, i.e. every
dot-separated chunk is a non-empty digit string. -/
def validVersionString (v : String) : Bool :=
  (splitOnChar '.' (cleanVersionChars v)).all isDigitChunk

/-- A component chunk of the amended C1 domain: a non-empty digit string
whose exact value is below 2 ^ 53, the range where Number represents
integers exactly. -/
def smallComponentChunk (l : List Char) : Bool :=
  isDigitChunk l && decide (parseDigits l < 2 ^ 53)

/-- The domain of the amended C1: a valid dotted-integer string all of whose
components are below 2 ^ 53. -/
def validSmallVersionString (v : String) : Bool :=
  (splitOnChar '.' (cleanVersionChars v)).all smallComponentChunk

/-- The exact numeric components of a version string, the spec side of the
comparison: no double rounding. -/
def exactComponents (v : String) : List Nat :=
  (splitOnChar '.' (cleanVersionChars v)).map parseDigits

/-- Spec-side definition, from the words of the spec: pad the shorter
component list with zeros. -/
def zeroPad (n : Nat) (l : List Nat) : List Nat :=
  l ++ List.replicate (n - l.length) 0

/-- Spec-side definition: left-to-right comparison of paired components, the
first unequal pair decides, equal lists compare as 0. -/
def lexCompare : List (Nat × Nat) → Int
  | [] => 0
  | (a, b) :: rest => if a > b then 1 else if a < b then -1 else lexCompare rest

/-- Spec-side definition of the claimed comparison: numeric, component-wise,
zero-padded comparison of the two component lists. -/
def specZeroPadCompare (a b : List Nat) : Int :=
  lexCompare ((zeroPad (max a.length b.length) a).zip
    (zeroPad (max a.length b.length) b))

lemma zeroPad_nil (n : Nat) : zeroPad n [] = List.replicate n 0 := by
  simp [zeroPad]

lemma zeroPad_cons (n : Nat) (a : Nat) (l : List Nat) :
    zeroPad (n + 1) (a :: l) = a :: zeroPad n l := by
  simp [zeroPad, List.replicate]

lemma zeroPad_self (l : List Nat) : zeroPad l.length l = l := by
  simp [zeroPad]

lemma compareParts_cons (a : Nat) (rest1 parts2 : List Nat) :
    compareParts (a :: rest1) parts2 =
      if a > parts2.headD 0 then 1
      else if a < parts2.headD 0 then -1
      else compareParts rest1 parts2.tail := rfl

lemma lexCompare_cons (a b : Nat) (rest : List (Nat × Nat)) :
    lexCompare ((a, b) :: rest) =
      if a > b then 1 else if a < b then -1 else lexCompare rest := rfl

lemma specZeroPadCompare_nil_cons (b : Nat) (rest : List Nat) :
    specZeroPadCompare [] (b :: rest) =
      if 0 > b then 1 else if 0 < b then -1 else specZeroPadCompare [] rest := by
  have h1 : max (List.length ([] : List Nat)) (b :: rest).length = rest.length + 1 := by
    simp
  have h2 : max (List.length ([] : List Nat)) rest.length = rest.length := by simp
  rw [specZeroPadCompare, h1, zeroPad_nil, List.replicate_succ,
    show zeroPad (rest.length + 1) (b :: rest) = b :: zeroPad rest.length rest from
      zeroPad_cons rest.length b rest,
    zeroPad_self, List.zip_cons_cons, lexCompare_cons, specZeroPadCompare, h2,
    zeroPad_nil, zeroPad_self]

lemma specZeroPadCompare_cons_nil (a : Nat) (rest : List Nat) :
    specZeroPadCompare (a :: rest) [] =
      if a > 0 then 1 else if a < 0 then -1 else specZeroPadCompare rest [] := by
  have h1 : max (a :: rest).length (List.length ([] : List Nat)) = rest.length + 1 := by
    simp
  have h2 : max rest.length (List.length ([] : List Nat)) = rest.length := by simp
  rw [specZeroPadCompare, h1, zeroPad_nil, List.replicate_succ,
    show zeroPad (rest.length + 1) (a :: rest) = a :: zeroPad rest.length rest from
      zeroPad_cons rest.length a rest,
    zeroPad_self, List.zip_cons_cons, lexCompare_cons, specZeroPadCompare, h2,
    zeroPad_nil, zeroPad_self]

lemma specZeroPadCompare_cons_cons (a b : Nat) (rest1 rest2 : List Nat) :
    specZeroPadCompare (a :: rest1) (b :: rest2) =
      if a > b then 1 else if a < b then -1 else specZeroPadCompare rest1 rest2 := by
  have h1 : max (a :: rest1).length (b :: rest2).length =
      max rest1.length rest2.length + 1 := by
    simp [Nat.succ_max_succ]
  rw [specZeroPadCompare, h1, zeroPad_cons, zeroPad_cons, List.zip_cons_cons,
    lexCompare_cons, specZeroPadCompare]

lemma comparePartsNil_eq_spec (bs : List Nat) :
    comparePartsNil bs = specZeroPadCompare [] bs := by
  induction bs with
  | nil => rfl
  | cons b rest ih =>
    rw [specZeroPadCompare_nil_cons, comparePartsNil, ih]
    by_cases hb : 0 < b
    · simp [hb, Nat.not_lt_of_lt hb]
    · simp [hb]

lemma compareParts_eq_spec (as bs : List Nat) :
    compareParts as bs = specZeroPadCompare as bs := by
  induction as generalizing bs with
  | nil => exact comparePartsNil_eq_spec bs
  | cons a rest1 ih =>
    cases bs with
    | nil =>
      rw [compareParts_cons, specZeroPadCompare_cons_nil]
      simp only [List.headD, List.tail]
      rw [ih []]
    | cons b rest2 =>
      rw [compareParts_cons, specZeroPadCompare_cons_cons]
      simp only [List.headD, List.tail]
      rw [ih rest2]

lemma comparePartsNil_mem (bs : List Nat) :
    comparePartsNil bs = -1 ∨ comparePartsNil bs = 0 ∨ comparePartsNil bs = 1 := by
  induction bs with
  | nil => simp [comparePartsNil]
  | cons b rest ih =>
    rw [comparePartsNil]
    split_ifs with hb
    · exact Or.inl rfl
    · exact ih

lemma compareParts_mem (as bs : List Nat) :
    compareParts as bs = -1 ∨ compareParts as bs = 0 ∨ compareParts as bs = 1 := by
  induction as generalizing bs with
  | nil => exact comparePartsNil_mem bs
  | cons a rest ih =>
    rw [compareParts_cons]
    split_ifs with h1 h2
    · exact Or.inr (Or.inr rfl)
    · exact Or.inl rfl
    · exact ih bs.tail

lemma digit_val_le (c : Char) (h : c.isDigit = true) : c.toNat - 48 ≤ 9 := by
  simp only [Char.isDigit, Bool.and_eq_true, decide_eq_true_eq] at h
  rcases h with ⟨h1, h2⟩
  have h3 : c.val.toNat ≤ 57 := by
    rw [UInt32.le_def, BitVec.le_def] at h2
    exact h2
  have h4 : c.toNat = c.val.toNat := rfl
  omega

lemma parseDigits_foldl_lt (l : List Char)
    (hdig : l.all (fun c => c.isDigit) = true) :
    ∀ acc : Nat, l.foldl (fun n c => n * 10 + (c.toNat - 48)) acc <
      (acc + 1) * 16 ^ l.length := by
  induction l with
  | nil => intro acc; simp
  | cons c rest ih =>
    intro acc
    simp only [List.all_cons, Bool.and_eq_true] at hdig
    have hc := digit_val_le c hdig.1
    simp only [List.foldl_cons, List.length_cons]
    calc rest.foldl (fun n c => n * 10 + (c.toNat - 48)) (acc * 10 + (c.toNat - 48))
        < (acc * 10 + (c.toNat - 48) + 1) * 16 ^ rest.length := ih hdig.2 _
      _ ≤ ((acc + 1) * 16) * 16 ^ rest.length :=
          Nat.mul_le_mul_right _ (by omega)
      _ = (acc + 1) * 16 ^ (rest.length + 1) := by ring

lemma parseDigits_lt (l : List Char)
    (hdig : l.all (fun c => c.isDigit) = true) :
    parseDigits l < 2 ^ (4 * l.length) := by
  calc parseDigits l < (0 + 1) * 16 ^ l.length := parseDigits_foldl_lt l hdig 0
    _ = (2 ^ 4) ^ l.length := by norm_num
    _ = 2 ^ (4 * l.length) := (Nat.pow_mul 2 4 l.length).symm

lemma excessBitsAux_small (fuel n : Nat) (h : n < 2 ^ 53) :
    excessBitsAux fuel n = 0 := by
  cases fuel with
  | zero => rfl
  | succ fuel => simp only [excessBitsAux, if_pos h]

lemma roundToDouble_small (fuel n : Nat) (h : n < 2 ^ 53) :
    roundToDouble fuel n = n := by
  simp [roundToDouble, excessBitsAux_small fuel n h]

lemma versionComponents_eq_exact (v : String)
    (h : validSmallVersionString v = true) :
    versionComponents v = exactComponents v := by
  unfold versionComponents exactComponents
  apply List.map_congr_left
  intro l hl
  have hchunk := List.all_eq_true.mp h l hl
  simp only [smallComponentChunk, Bool.and_eq_true, decide_eq_true_eq] at hchunk
  have hcond : (!l.isEmpty && l.all fun c => c.isDigit) = true := hchunk.1
  unfold jsNumberOrZero
  rw [if_pos hcond]
  exact roundToDouble_small _ _ hchunk.2

/-- Counterexample to C1 as stated: 9007199254740993 (2 ^ 53 + 1) and
9007199254740992 (2 ^ 53) are both valid dotted-integer strings, yet Number
rounds the first to the same double as the second (round to nearest, ties to
even), so compareVersions returns 0 on the pair where exact numeric,
component-wise comparison puts the first strictly above the second. -/
theorem compareVersions_claim_cex :
    validVersionString "9007199254740993" = true ∧
    validVersionString "9007199254740992" = true ∧
    compareVersions "9007199254740993" "9007199254740992" = 0 ∧
    specZeroPadCompare (exactComponents "9007199254740993")
      (exactComponents "9007199254740992") = 1 := by
  refine ⟨by decide, by decide, by decide, by decide⟩

/-- C1 amended: for every pair of valid dotted-integer version strings
(optional leading v, optional dash suffix) all of whose components are below
2 ^ 53, where Number represents integers exactly, compareVersions agrees
with numeric, component-wise, zero-padded comparison of the exact components
and returns -1, 0 or 1; the two quoted examples hold, so a string with fewer
components is padded with zeros rather than treated as smaller. -/
theorem compareVersions_correct :
    (∀ v1 v2 : String, validSmallVersionString v1 = true →
      validSmallVersionString v2 = true →
      compareVersions v1 v2 =
        specZeroPadCompare (exactComponents v1) (exactComponents v2) ∧
      (compareVersions v1 v2 = -1 ∨ compareVersions v1 v2 = 0 ∨
        compareVersions v1 v2 = 1)) ∧
    compareVersions "1.2" "1.2.0" = 0 ∧
    compareVersions "v1.10.0-dev.3" "1.9.9" = 1 := by
  refine ⟨fun v1 v2 h1 h2 => ⟨?_, compareParts_mem _ _⟩, by decide, by decide⟩
  rw [compareVersions, compareParts_eq_spec, versionComponents_eq_exact v1 h1,
    versionComponents_eq_exact v2 h2]

/-- Witness for C1 amended at the concrete pair ("1.2", "v1.10.0-dev.3"):
both are valid dotted-integer strings with components below 2 ^ 53 and the
comparator agrees with the exact zero-padded comparison there. -/
theorem compareVersions_correct_witness :
    validSmallVersionString "1.2" = true ∧
    validSmallVersionString "v1.10.0-dev.3" = true ∧
    compareVersions "1.2" "v1.10.0-dev.3" =
      specZeroPadCompare (exactComponents "1.2")
        (exactComponents "v1.10.0-dev.3") := by
  refine ⟨by decide, by decide, ?_⟩
  exact (compareVersions_correct.1 "1.2" "v1.10.0-dev.3" (by decide) (by decide)).1

/-- Embeds the ToolVersionRequirement interface of src/index.ts: optional
inclusive minimum and maximum backend versions. -/
structure ToolVersionRequirement where
  minVersion : Option String
  maxVersion : Option String

/-- Embeds the TOOL_VERSION_REQUIREMENTS map of src/index.ts: schedule tools
require backend 1.1.1, create-deployment requires backend 1.4.7, all other
tools carry no requirement. -/
def TOOL_VERSION_REQUIREMENTS (toolName : String) : Option ToolVersionRequirement :=
  if toolName = "upsert-schedule" then some ⟨some "1.1.1", none⟩
  else if toolName = "delete-schedule" then some ⟨some "1.1.1", none⟩
  else if toolName = "create-deployment" then some ⟨some "1.4.7", none⟩
  else none

/-- A JavaScript truthiness filter for optional strings: undefined and the
empty string are falsy. -/
def jsTruthyStr : Option String → Option String
  | some s => if s = "" then none else some s
  | none => none

/-- Embeds the guard (minVersion && compareVersions(backendVersion, minVersion) < 0)
of shouldRegisterTool. -/
def minVersionRejects (backendVersion : String) (minVersion : Option String) : Bool :=
  match jsTruthyStr minVersion with
  | some minV => if compareVersions backendVersion minV < 0 then true else false
  | none => false

/-- Embeds the guard (maxVersion && compareVersions(backendVersion, maxVersion) > 0)
of shouldRegisterTool. -/
def maxVersionRejects (backendVersion : String) (maxVersion : Option String) : Bool :=
  match jsTruthyStr maxVersion with
  | some maxV => if compareVersions backendVersion maxV > 0 then true else false
  | none => false

/-- Embeds the body of shouldRegisterTool once a requirement was found: the
two early returns on the min and max bound. -/
def shouldRegisterToolReq (backendVersion : String) (req : ToolVersionRequirement) : Bool :=
  if minVersionRejects backendVersion req.minVersion then false
  else if maxVersionRejects backendVersion req.maxVersion then false
  else true

/-- Embeds shouldRegisterTool from src/index.ts: a tool with no entry in the
requirements map is always registered; otherwise it is rejected when the
backend version is below the minimum or above the maximum bound. -/
def shouldRegisterTool (toolName backendVersion : String) : Bool :=
  match TOOL_VERSION_REQUIREMENTS toolName with
  | none => true
  | some req => shouldRegisterToolReq backendVersion req

/-- Spec-side condition, from the words of the claim, for one requirement:
when a minVersion is present the backend version compares at least the
minimum, and when a maxVersion is present at most the maximum. -/
def specGateReq (backendVersion : String) (req : ToolVersionRequirement) : Prop :=
  (∀ minV, req.minVersion = some minV → 0 ≤ compareVersions backendVersion minV) ∧
  (∀ maxV, req.maxVersion = some maxV → compareVersions backendVersion maxV ≤ 0)

/-- Spec-side acceptance condition of the claim: no version requirement, or
the bounds of the requirement are satisfied. -/
def specGateAccepts (toolName backendVersion : String) : Prop :=
  match TOOL_VERSION_REQUIREMENTS toolName with
  | none => True
  | some req => specGateReq backendVersion req

lemma req_cases (toolName : String) (req : ToolVersionRequirement)
    (h : TOOL_VERSION_REQUIREMENTS toolName = some req) :
    req = ⟨some "1.1.1", none⟩ ∨ req = ⟨some "1.4.7", none⟩ := by
  unfold TOOL_VERSION_REQUIREMENTS at h
  split_ifs at h
  · exact Or.inl (by injection h with h; exact h.symm)
  · exact Or.inl (by injection h with h; exact h.symm)
  · exact Or.inr (by injection h with h; exact h.symm)

lemma gate_min_only (backendVersion minV : String) (h : ¬ minV = "") :
    shouldRegisterToolReq backendVersion ⟨some minV, none⟩ = true ↔
      specGateReq backendVersion ⟨some minV, none⟩ := by
  simp only [shouldRegisterToolReq, specGateReq, minVersionRejects, maxVersionRejects,
    jsTruthyStr, if_neg h, Option.some.injEq, forall_eq']
  by_cases hc : compareVersions backendVersion minV < 0
  · simp only [if_pos hc]
    constructor
    · intro hfalse; simp at hfalse
    · rintro ⟨hge, -⟩; omega
  · simp only [if_neg hc]
    constructor
    · intro _; exact ⟨by omega, fun maxV hm => by cases hm⟩
    · intro _; simp

/-- C2: the registration gate accepts a tool iff it has no version
requirement, or the backend version satisfies the inclusive min and max
bounds; in particular a tool with minVersion 1.1.1 is registered at backend
1.1.1 and 1.2.0 and omitted at 1.1.0. -/
theorem shouldRegisterTool_correct :
    (∀ toolName backendVersion : String,
      shouldRegisterTool toolName backendVersion = true ↔
        specGateAccepts toolName backendVersion) ∧
    shouldRegisterTool "upsert-schedule" "1.1.1" = true ∧
    shouldRegisterTool "upsert-schedule" "1.2.0" = true ∧
    shouldRegisterTool "upsert-schedule" "1.1.0" = false := by
  refine ⟨fun toolName backendVersion => ?_, by decide, by decide, by decide⟩
  cases hreq : TOOL_VERSION_REQUIREMENTS toolName with
  | none => simp [shouldRegisterTool, specGateAccepts, hreq]
  | some req =>
    rcases req_cases toolName req hreq with h | h <;> subst h <;>
      simp only [shouldRegisterTool, specGateAccepts, hreq]
    · exact gate_min_only backendVersion "1.1.1" (by decide)
    · exact gate_min_only backendVersion "1.4.7" (by decide)

/-- Witness for C2 at upsert-schedule against backend 1.2.0: the gate accepts
and the spec-side bounds hold. -/
theorem shouldRegisterTool_correct_witness :
    specGateAccepts "upsert-schedule" "1.2.0" := by
  exact (shouldRegisterTool_correct.1 "upsert-schedule" "1.2.0").mp (by decide)

/-- Embeds the error field of the StandardResponse envelope from
src/shared/response-handler (code, message, details); details is typed any in
the source and is modelled here by its string payloads, the form the claims
and the thrown text template exercise. -/
structure ApiErrorInfo where
  code : Option String
  message : Option String
  details : Option String
deriving DecidableEq

/-- Embeds the StandardResponse envelope: success (none models an absent key
in the parsed body), data, error and top-level nextAction. -/
structure StandardResponse (α : Type) where
  success : Option Bool
  data : Option α
  error : Option ApiErrorInfo
  nextAction : Option String
deriving DecidableEq

/-- Embeds a || b for an optional string against an optional fallback:
undefined and the empty string fall through. -/
def jsStringOrOpt (a b : Option String) : Option String :=
  match a with
  | some s => if s = "" then b else some s
  | none => b

/-- Embeds a || fallback for an optional string against a string literal. -/
def jsStringOr (a : Option String) (fallback : String) : String :=
  match a with
  | some s => if s = "" then fallback else s
  | none => fallback

/-- Embeds the error branch of handleApiResponse from the response handler in
src/shared: code with the UNKNOWN_ERROR fallback, message from details or
message or the literal Unknown error, and the nextAction suffix appended
after a period and a space when nextAction is truthy. -/
def buildErrorMessage {α : Type} (resp : StandardResponse α) : String :=
  let errorCode := jsStringOr (resp.error.bind (fun e => e.code)) "UNKNOWN_ERROR"
  let errorMessage := jsStringOr
    (jsStringOrOpt (resp.error.bind (fun e => e.details))
      (resp.error.bind (fun e => e.message))) "Unknown error"
  let fullMessage := "[" ++ errorCode ++ "] " ++ errorMessage
  match resp.nextAction with
  | some na => if na = "" then fullMessage else fullMessage ++ ". " ++ na
  | none => fullMessage

/-- The two non-throwing outcomes of handleApiResponse: the whole body
returned verbatim (legacy fallback) or the data field. -/
inductive ApiResult (α : Type) where
  | legacy (body : StandardResponse α)
  | dataField (value : Option α)
deriving DecidableEq

/-- Embeds handleApiResponse from the response handler in src/shared: if the
success key is absent return the body verbatim; if success is false throw the
built error text; otherwise return the data field. -/
def handleApiResponse {α : Type} (resp : StandardResponse α) :
    Except String (ApiResult α) :=
  match resp.success with
  | none => Except.ok (ApiResult.legacy resp)
  | some b =>
    if b = false then Except.error (buildErrorMessage resp)
    else Except.ok (ApiResult.dataField resp.data)

/-- The message formula of claim C3 read literally: the message is
error.details if the key is present (with any value, even empty), otherwise
error.message if present, otherwise the literal Unknown error; nextAction is
appended whenever present. The code position reuses the UNKNOWN_ERROR
fallback, which is irrelevant at the inputs below where code is present. -/
def claimErrorMessage {α : Type} (resp : StandardResponse α) : String :=
  let message :=
    match resp.error.bind (fun e => e.details) with
    | some d => d
    | none =>
      match resp.error.bind (fun e => e.message) with
      | some m => m
      | none => "Unknown error"
  let base := "[" ++ jsStringOr (resp.error.bind (fun e => e.code)) "UNKNOWN_ERROR"
    ++ "] " ++ message
  match resp.nextAction with
  | some na => base ++ ". " ++ na
  | none => base

/-- A backend error body whose details key is present but holds the empty
string, with a non-empty message alongside. -/
def respDetailsEmpty : StandardResponse Unit :=
  { success := some false
    data := none
    error := some { code := some "E1", message := some "msg", details := some "" }
    nextAction := none }

/-- Counterexample to C3 as stated: on a success:false body whose error
carries details present-but-empty and message "msg", the code falls through
the JavaScript truthiness of details and throws "[E1] msg", while the claimed
formula (details whenever present) yields "[E1] ". -/
theorem handleApiResponse_claim_cex :
    handleApiResponse respDetailsEmpty = Except.error "[E1] msg" ∧
    claimErrorMessage respDetailsEmpty = "[E1] " ∧
    ("[E1] msg" : String) ≠ "[E1] " := by
  refine ⟨rfl, rfl, by decide⟩

/-- The amended C3 message formula: details if present and non-empty
(JavaScript truthiness), otherwise message if present and non-empty,
otherwise the literal Unknown error; nextAction appended after a period and a
space when present and non-empty. -/
def amendedErrorText (code : String) (details message nextAction : Option String) :
    String :=
  let msg :=
    match jsTruthyStr details with
    | some d => d
    | none =>
      match jsTruthyStr message with
      | some m => m
      | none => "Unknown error"
  let base := "[" ++ code ++ "] " ++ msg
  match jsTruthyStr nextAction with
  | some na => base ++ ". " ++ na
  | none => base

lemma jsStringOr_chain (a b : Option String) (f : String) :
    jsStringOr (jsStringOrOpt a b) f =
      match jsTruthyStr a with
      | some d => d
      | none =>
        match jsTruthyStr b with
        | some m => m
        | none => f := by
  cases a with
  | none =>
    cases b with
    | none => rfl
    | some s => simp only [jsStringOrOpt, jsStringOr, jsTruthyStr]; split_ifs <;> rfl
  | some s =>
    cases b with
    | none =>
      simp only [jsStringOrOpt, jsStringOr, jsTruthyStr]; split_ifs <;> simp_all
    | some t =>
      simp only [jsStringOrOpt, jsStringOr, jsTruthyStr]; split_ifs <;> simp_all

lemma buildErrorMessage_eq_amended {α : Type} (resp : StandardResponse α)
    (err : ApiErrorInfo) (c : String) (herr : resp.error = some err)
    (hcode : err.code = some c) (hc : ¬ c = "") :
    buildErrorMessage resp = amendedErrorText c err.details err.message resp.nextAction := by
  have h1 : resp.error.bind (fun e => e.code) = some c := by rw [herr]; simpa using hcode
  have h2 : resp.error.bind (fun e => e.details) = err.details := by rw [herr]; rfl
  have h3 : resp.error.bind (fun e => e.message) = err.message := by rw [herr]; rfl
  simp only [buildErrorMessage, amendedErrorText, h1, h2, h3, jsStringOr_chain]
  rw [show jsStringOr (some c) "UNKNOWN_ERROR" = c by simp [jsStringOr, hc]]
  cases hna : resp.nextAction with
  | none => rfl
  | some na =>
    simp only [jsTruthyStr]
    split_ifs <;> rfl

/-- The envelope of the quoted C3 example: success false, error code E1 with
details "bad input", nextAction "retry with valid input". -/
def respC3example : StandardResponse Unit :=
  { success := some false
    data := none
    error := some { code := some "E1", message := none, details := some "bad input" }
    nextAction := some "retry with valid input" }

/-- C3 amended: a success:false body always makes the normalizer throw, and
when the error code is present and non-empty the thrown text is
"[code] message" with message taken from details if present and non-empty,
else message if present and non-empty, else Unknown error, and with a
present, non-empty nextAction appended after a period and a space; on the
quoted example the text is exactly "[E1] bad input. retry with valid input". -/
theorem handleApiResponse_error_text :
    (∀ (α : Type) (resp : StandardResponse α), resp.success = some false →
      (∃ e, handleApiResponse resp = Except.error e) ∧
      (∀ err c, resp.error = some err → err.code = some c → ¬ c = "" →
        handleApiResponse resp =
          Except.error (amendedErrorText c err.details err.message resp.nextAction))) ∧
    handleApiResponse respC3example =
      Except.error "[E1] bad input. retry with valid input" := by
  refine ⟨fun α resp hs => ⟨⟨buildErrorMessage resp, ?_⟩, fun err c herr hcode hc => ?_⟩, ?_⟩
  · simp [handleApiResponse, hs]
  · rw [show handleApiResponse resp = Except.error (buildErrorMessage resp) by
      simp [handleApiResponse, hs]]
    rw [buildErrorMessage_eq_amended resp err c herr hcode hc]
  · rfl

/-- Witness for C3 amended at the quoted example input: its hypotheses hold
and the thrown text matches the amended formula. -/
theorem handleApiResponse_error_text_witness :
    respC3example.success = some false ∧
    handleApiResponse respC3example =
      Except.error (amendedErrorText "E1" (some "bad input") none
        (some "retry with valid input")) := by
  refine ⟨rfl, ?_⟩
  exact (handleApiResponse_error_text.1 Unit respC3example rfl).2
    { code := some "E1", message := none, details := some "bad input" } "E1"
    rfl rfl (by decide)

/-- C4: when the success key is absent the normalizer returns the whole body
unchanged (legacy fallback), and when success is true it returns the data
field, possibly absent, without throwing. -/
theorem handleApiResponse_legacy_and_data :
    ∀ (α : Type) (resp : StandardResponse α),
      (resp.success = none →
        handleApiResponse resp = Except.ok (ApiResult.legacy resp)) ∧
      (resp.success = some true →
        handleApiResponse resp = Except.ok (ApiResult.dataField resp.data)) := by
  intro α resp
  refine ⟨fun h => ?_, fun h => ?_⟩ <;> simp [handleApiResponse, h]

/-- Witness for C4 at two concrete bodies: one without success key returned
verbatim, one with success true yielding its data field. -/
theorem handleApiResponse_legacy_and_data_witness :
    handleApiResponse (StandardResponse.mk none (some 5) none none) =
      Except.ok (ApiResult.legacy (StandardResponse.mk none (some 5) none none)) ∧
    handleApiResponse (StandardResponse.mk (some true) (some 7) none none) =
      Except.ok (ApiResult.dataField (some 7)) := by
  exact ⟨(handleApiResponse_legacy_and_data Nat
      (StandardResponse.mk none (some 5) none none)).1 rfl,
    (handleApiResponse_legacy_and_data Nat
      (StandardResponse.mk (some true) (some 7) none none)).2 rfl⟩

/-- The tool names registered by registerInsforgeTools in src/index.ts, in
registration order (the two schedule tools are commented out there). -/
def staticToolList : List String :=
  ["fetch-docs", "get-anon-key", "get-table-schema", "get-backend-metadata",
   "run-raw-sql", "download-template", "bulk-upsert", "create-bucket",
   "list-buckets", "delete-bucket", "create-function", "get-function",
   "update-function", "delete-function", "get-container-logs",
   "create-deployment"]

/-- Embeds the registration phase of registerInsforgeTools in src/index.ts:
the backend version is fetched once (the version the backend reports at fetch
index 0 of the session history) before any tool is registered, and each tool
of the static list is registered exactly when shouldRegisterTool accepts it
against that captured version. -/
def sessionRegisteredTools (reportedVersionAtFetch : Nat → String) : List String :=
  staticToolList.filter (fun name => shouldRegisterTool name (reportedVersionAtFetch 0))

/-- C5: a tool is exposed in a session iff it is in the static list and its
version requirement is satisfied by the backend version resolved at
registration time (fetch index 0); two backend histories agreeing on that
first reported version expose the same tools, so a change in the reported
version after registration neither adds nor removes a tool. -/
theorem sessionRegisteredTools_correct :
    (∀ (h : Nat → String) (name : String),
      name ∈ sessionRegisteredTools h ↔
        name ∈ staticToolList ∧ shouldRegisterTool name (h 0) = true) ∧
    (∀ h1 h2 : Nat → String, h1 0 = h2 0 →
      sessionRegisteredTools h1 = sessionRegisteredTools h2) := by
  constructor
  · intro h name
    simp [sessionRegisteredTools, List.mem_filter]
  · intro h1 h2 hagree
    simp [sessionRegisteredTools, hagree]

/-- Witness for C5 at a concrete history: a backend that reports 1.5.0 at
registration and 1.0.0 afterwards still exposes create-deployment, and the
exposed set equals the one of the constant 1.5.0 history. -/
theorem sessionRegisteredTools_correct_witness :
    ("create-deployment" ∈
        sessionRegisteredTools (fun i => if i = 0 then "1.5.0" else "1.0.0") ↔
      "create-deployment" ∈ staticToolList ∧
        shouldRegisterTool "create-deployment" "1.5.0" = true) ∧
    sessionRegisteredTools (fun i => if i = 0 then "1.5.0" else "1.0.0") =
      sessionRegisteredTools (fun _ => "1.5.0") := by
  exact ⟨sessionRegisteredTools_correct.1 (fun i => if i = 0 then "1.5.0" else "1.0.0")
      "create-deployment",
    sessionRegisteredTools_correct.2 (fun i => if i = 0 then "1.5.0" else "1.0.0")
      (fun _ => "1.5.0") rfl⟩

/-- Embeds the VersionCacheEntry interface of src/shared/tools.ts. -/
structure VersionCacheEntry where
  version : String
  timestamp : Int
deriving DecidableEq

/-- Embeds VERSION_CACHE_TTL of src/shared/tools.ts: five minutes in
milliseconds. -/
def VERSION_CACHE_TTL : Int := 5 * 60 * 1000

/-- One call of getBackendVersion: the produced result, the cache slot it
leaves behind, and whether a health request was issued to the backend. -/
structure VersionFetchStep where
  result : Except String String
  cache : Option VersionCacheEntry
  issuedRequest : Bool

/-- Embeds the fetch path of getBackendVersion in src/shared/tools.ts: one
GET health request is issued (healthFetch models the fetch plus status check
plus parse of the version field); on success the version is cached under the
current time and returned, on failure the error is wrapped and the cache
slot is left as it was. -/
def getBackendVersionFetch (now : Int) (healthFetch : Except String String)
    (cache : Option VersionCacheEntry) : VersionFetchStep :=
  match healthFetch with
  | Except.ok v => ⟨Except.ok v, some ⟨v, now⟩, true⟩
  | Except.error e =>
    ⟨Except.error ("Failed to fetch backend version: " ++ e), cache, true⟩

/-- Embeds getBackendVersion in src/shared/tools.ts: return the cached
version without any request while the entry is younger than the TTL,
otherwise go to the backend. -/
def getBackendVersion (now : Int) (healthFetch : Except String String)
    (cache : Option VersionCacheEntry) : VersionFetchStep :=
  match cache with
  | some entry =>
    if now - entry.timestamp < VERSION_CACHE_TTL then
      ⟨Except.ok entry.version, cache, false⟩
    else getBackendVersionFetch now healthFetch cache
  | none => getBackendVersionFetch now healthFetch cache

/-- C6: a successful uncached call stores the fetched version with the
current time; a second call strictly less than five minutes after the entry
was stored returns the cached version and issues no request; a call at or
after the TTL issues a request and, on success, overwrites the cache with
the fresh version and timestamp. -/
theorem getBackendVersion_cache_correct :
    (∀ (t0 : Int) (v : String) (cache0 : Option VersionCacheEntry),
      (∀ entry, cache0 = some entry → VERSION_CACHE_TTL ≤ t0 - entry.timestamp) →
      getBackendVersion t0 (Except.ok v) cache0 =
        ⟨Except.ok v, some ⟨v, t0⟩, true⟩) ∧
    (∀ (t0 t1 : Int) (v : String) (healthFetch : Except String String),
      t1 - t0 < VERSION_CACHE_TTL →
      getBackendVersion t1 healthFetch (some ⟨v, t0⟩) =
        ⟨Except.ok v, some ⟨v, t0⟩, false⟩) ∧
    (∀ (t0 t1 : Int) (v v2 : String),
      VERSION_CACHE_TTL ≤ t1 - t0 →
      getBackendVersion t1 (Except.ok v2) (some ⟨v, t0⟩) =
        ⟨Except.ok v2, some ⟨v2, t1⟩, true⟩) := by
  refine ⟨fun t0 v cache0 hstale => ?_, fun t0 t1 v healthFetch hfresh => ?_,
    fun t0 t1 v v2 hstale => ?_⟩
  · cases cache0 with
    | none => rfl
    | some entry =>
      have h1 := hstale entry rfl
      have h2 : ¬ t0 - entry.timestamp < VERSION_CACHE_TTL := not_lt.mpr h1
      simp [getBackendVersion, getBackendVersionFetch, h2]
  · simp [getBackendVersion, hfresh]
  · have h2 : ¬ t1 - t0 < VERSION_CACHE_TTL := not_lt.mpr hstale
    simp [getBackendVersion, getBackendVersionFetch, h2]

/-- Witness for C6 at concrete times: store at time 0, hit the cache at
299999 ms with no request, refetch and overwrite at 300000 ms. -/
theorem getBackendVersion_cache_correct_witness :
    getBackendVersion 0 (Except.ok "1.1.7") none =
      ⟨Except.ok "1.1.7", some ⟨"1.1.7", 0⟩, true⟩ ∧
    getBackendVersion 299999 (Except.ok "9.9.9") (some ⟨"1.1.7", 0⟩) =
      ⟨Except.ok "1.1.7", some ⟨"1.1.7", 0⟩, false⟩ ∧
    getBackendVersion 300000 (Except.ok "1.2.0") (some ⟨"1.1.7", 0⟩) =
      ⟨Except.ok "1.2.0", some ⟨"1.2.0", 300000⟩, true⟩ := by
  refine ⟨getBackendVersion_cache_correct.1 0 "1.1.7" none (fun entry h => by cases h),
    getBackendVersion_cache_correct.2.1 0 299999 "1.1.7" (Except.ok "9.9.9") (by decide),
    getBackendVersion_cache_correct.2.2 0 300000 "1.1.7" "1.2.0" (by decide)⟩

/-- Embeds the absolute-path test of the create-deployment handler in
src/index.ts: a leading slash, or a drive letter followed by a colon and a
slash or backslash (the regex [a-zA-Z]:[/\\] anchored at the start). -/
def isAbsolutePath (s : String) : Bool :=
  (match s.data with
   | c :: _ => c = '/'
   | [] => false) ||
  (match s.data with
   | c1 :: c2 :: c3 :: _ => c1.isAlpha && c2 = ':' && (c3 = '/' || c3 = '\\')
   | _ => false)

/-- The error text the create-deployment handler returns for a relative
sourceDirectory, demanding an absolute path. -/
def relativePathError (sourceDirectory : String) : String :=
  "Error: sourceDirectory must be an absolute path, not a relative path like \"" ++
    sourceDirectory ++
    "\". Please provide the full path to the source directory (e.g., /Users/name/project on macOS/Linux or C:\\Users\\name\\project on Windows)."

/-- The backend requests of the deployment flow: create the deployment row,
upload the zip to the presigned URL, start the deployment. -/
inductive DeploymentRequest where
  | createDeployment
  | uploadZip
  | startDeployment
deriving DecidableEq

/-- A tool result as returned to the client: a text payload and the error
flag. -/
structure ToolCallResult where
  text : String
  isError : Bool
deriving DecidableEq

/-- Embeds the prefix of the create-deployment handler in src/index.ts up to
the first network step: when sourceDirectory is not absolute the handler
returns an error text result having issued no request; otherwise it proceeds
into the network part of the handler, modelled abstractly by the
continuation rest paired with whatever backend requests that continuation
issues. -/
def createDeploymentHandler (sourceDirectory : String)
    (rest : ToolCallResult × List DeploymentRequest) :
    ToolCallResult × List DeploymentRequest :=
  if !(isAbsolutePath sourceDirectory) then
    (⟨relativePathError sourceDirectory, true⟩, [])
  else rest

/-- C7: for every non-absolute sourceDirectory the create-deployment handler
returns the error result demanding an absolute path and issues no backend
request, whatever the network continuation would have done; the relative
path "." is such an input. -/
theorem createDeployment_relative_rejected :
    (∀ (sourceDirectory : String) (rest : ToolCallResult × List DeploymentRequest),
      isAbsolutePath sourceDirectory = false →
      createDeploymentHandler sourceDirectory rest =
        (⟨relativePathError sourceDirectory, true⟩, ([] : List DeploymentRequest))) ∧
    isAbsolutePath "." = false := by
  refine ⟨fun sourceDirectory rest h => ?_, by decide⟩
  simp [createDeploymentHandler, h]

/-- Witness for C7 at the relative path "." with a continuation that would
have issued all three deployment requests: the handler returns the error
result and the empty request list. -/
theorem createDeployment_relative_rejected_witness :
    createDeploymentHandler "."
        (⟨"deployed", false⟩,
          [DeploymentRequest.createDeployment, DeploymentRequest.uploadZip,
            DeploymentRequest.startDeployment]) =
      (⟨relativePathError ".", true⟩, []) := by
  exact createDeployment_relative_rejected.1 "."
    (⟨"deployed", false⟩,
      [DeploymentRequest.createDeployment, DeploymentRequest.uploadZip,
        DeploymentRequest.startDeployment]) (by decide)

/-- A usage event as handed to the tracker: tool name and success flag. -/
structure UsageEvent where
  toolName : String
  success : Bool
deriving DecidableEq

/-- Modelled from the spec: UsageTracker.trackUsage (src/usage-tracker.ts is
not among the sources, only its call sites) performs a best-effort,
fire-and-forget POST of one usage event; per the spec its failures are
caught and discarded (logged, not surfaced), so it always returns normally
and hands over exactly the one event whatever the POST outcome was. -/
def trackUsage (toolName : String) (success : Bool)
    (_postResult : Except String Unit) : List UsageEvent :=
  [⟨toolName, success⟩]

/-- Embeds trackToolUsage from src/index.ts: delegate to the tracker only
when a global API key is configured, otherwise skip tracking entirely. -/
def trackToolUsage (globalApiKey toolName : String) (success : Bool)
    (postResult : Except String Unit) : List UsageEvent :=
  if ¬ globalApiKey = "" then trackUsage toolName success postResult else []

/-- Embeds withUsageTracking from src/index.ts over a synchronous model of
the inner handler: on a returned result emit the success event and return
the result; on a thrown error emit the failure event and re-throw. The
tracking call never throws (the tracker swallows its failures), so the catch
branch of the wrapper is entered only through the inner handler. -/
def withUsageTracking {E R : Type} (globalApiKey toolName : String)
    (postResult : Except String Unit) (handler : Except E R) :
    Except E R × List UsageEvent :=
  match handler with
  | Except.ok r =>
    (Except.ok r, trackToolUsage globalApiKey toolName true postResult)
  | Except.error e =>
    (Except.error e, trackToolUsage globalApiKey toolName false postResult)

/-- Counterexample to C8 as stated: with no global API key configured (an
admissible session configuration) the inner handler returns a result but no
success usage event is emitted, because trackToolUsage skips the tracker
when the key is empty. -/
theorem withUsageTracking_claim_cex :
    (withUsageTracking "" "fetch-docs" (Except.ok ())
        (Except.ok (0 : Nat) : Except String Nat)).1 = Except.ok 0 ∧
    (withUsageTracking "" "fetch-docs" (Except.ok ())
        (Except.ok (0 : Nat) : Except String Nat)).2 = [] := by
  exact ⟨rfl, rfl⟩

/-- C8 amended: the wrapper always returns the inner result or re-throws the
inner error unchanged; when a global API key is configured it emits exactly
one success event on a result and one failure event on an error; and the
outcome of the tracking POST never changes anything the wrapper returns. -/
theorem withUsageTracking_correct :
    (∀ (E R : Type) (globalApiKey toolName : String)
      (postResult : Except String Unit) (handler : Except E R),
      (withUsageTracking globalApiKey toolName postResult handler).1 = handler) ∧
    (∀ (E R : Type) (globalApiKey toolName : String), ¬ globalApiKey = "" →
      ∀ (postResult : Except String Unit) (r : R) (e : E),
      (withUsageTracking (E := E) globalApiKey toolName postResult
          (Except.ok r)).2 = [⟨toolName, true⟩] ∧
      (withUsageTracking (R := R) globalApiKey toolName postResult
          (Except.error e)).2 = [⟨toolName, false⟩]) ∧
    (∀ (E R : Type) (globalApiKey toolName : String)
      (post1 post2 : Except String Unit) (handler : Except E R),
      withUsageTracking globalApiKey toolName post1 handler =
        withUsageTracking globalApiKey toolName post2 handler) := by
  refine ⟨fun E R g toolName post handler => ?_,
    fun E R g toolName hg post r e => ?_,
    fun E R g toolName post1 post2 handler => ?_⟩
  · cases handler <;> rfl
  · constructor <;> simp [withUsageTracking, trackToolUsage, trackUsage, hg]
  · cases handler <;> rfl

/-- Witness for C8 amended with a configured key: a succeeding handler keeps
its result and emits the success event even though the tracking POST itself
failed. -/
theorem withUsageTracking_correct_witness :
    (withUsageTracking "secret" "run-raw-sql" (Except.error "tracking down")
        (Except.ok (42 : Nat) : Except String Nat)).1 = Except.ok 42 ∧
    (withUsageTracking "secret" "run-raw-sql" (Except.error "tracking down")
        (Except.ok (42 : Nat) : Except String Nat)).2 =
      [⟨"run-raw-sql", true⟩] := by
  refine ⟨withUsageTracking_correct.1 String Nat "secret" "run-raw-sql"
      (Except.error "tracking down") (Except.ok 42), ?_⟩
  exact (withUsageTracking_correct.2.1 String Nat "secret" "run-raw-sql"
    (by decide) (Except.error "tracking down") 42 "unused").1

/-- One text content block of a tool response. -/
structure TextContent where
  text : String
deriving DecidableEq

/-- The fixed banner prefixed to the appended legacy context block. -/
def backgroundBanner : String :=
  "\n\n---\n🔧 INSFORGE DEVELOPMENT RULES (Auto-loaded):\n"

/-- Embeds addBackgroundContext from src/index.ts: backendVersion is the
session value captured at registration; instructionsFetch models
fetchInsforgeInstructionsContext, which resolves to none when fetching the
instructions document fails (it catches its own errors); only for backend
versions before 1.1.7 and a truthy fetched context does it append one extra
text block. The function is total: no input fails the overall response. -/
def addBackgroundContext (backendVersion : String)
    (instructionsFetch : Option String) (response : List TextContent) :
    List TextContent :=
  if compareVersions backendVersion "1.1.7" < 0 then
    match instructionsFetch with
    | some context =>
      if context = "" then response
      else response ++ [⟨backgroundBanner ++ context⟩]
    | none => response
  else response

/-- C9: the decorator returns the original response unmodified whenever the
backend version compares at least 1.1.7 or the instructions fetch failed;
and whenever it modifies the response at all, the version was below 1.1.7,
the fetch succeeded, and the result is the original response with exactly
one extra text block appended, prefixed with the fixed banner. -/
theorem addBackgroundContext_correct :
    ∀ (backendVersion : String) (instructionsFetch : Option String)
      (response : List TextContent),
      (0 ≤ compareVersions backendVersion "1.1.7" ∨ instructionsFetch = none →
        addBackgroundContext backendVersion instructionsFetch response = response) ∧
      (addBackgroundContext backendVersion instructionsFetch response ≠ response →
        compareVersions backendVersion "1.1.7" < 0 ∧
        ∃ context, instructionsFetch = some context ∧
          addBackgroundContext backendVersion instructionsFetch response =
            response ++ [⟨backgroundBanner ++ context⟩]) := by
  intro backendVersion instructionsFetch response
  constructor
  · rintro (hge | hnone)
    · simp [addBackgroundContext, not_lt.mpr hge]
    · subst hnone
      simp only [addBackgroundContext]
      split_ifs <;> rfl
  · intro hne
    by_cases hlt : compareVersions backendVersion "1.1.7" < 0
    · cases hctx : instructionsFetch with
      | none => exact absurd (by simp [addBackgroundContext, hlt, hctx]) hne
      | some context =>
        by_cases hc : context = ""
        · exact absurd (by simp [addBackgroundContext, hlt, hctx, hc]) hne
        · exact ⟨hlt, context, rfl, by simp [addBackgroundContext, hlt, hctx, hc]⟩
    · exact absurd (by simp [addBackgroundContext, hlt]) hne

/-- Witness for C9 at a backend above the threshold: version 1.2.0 with a
successfully fetched context leaves the response untouched. -/
theorem addBackgroundContext_correct_witness :
    addBackgroundContext "1.2.0" (some "the rules") [⟨"hello"⟩] = [⟨"hello"⟩] := by
  exact (addBackgroundContext_correct "1.2.0" (some "the rules") [⟨"hello"⟩]).1
    (Or.inl (by decide))

/-- Embeds getApiKey from src/index.ts (same body in src/shared/tools.ts):
the per-call parameter is kept only for backward compatibility and never
read; the globally configured key is required and returned. -/
def getApiKey (globalApiKey : String) (_toolApiKey : Option String) :
    Except String String :=
  if globalApiKey = "" then
    Except.error "API key is required. Pass --api_key when starting the MCP server."
  else Except.ok globalApiKey

/-- A generic authenticated tool call of the shared tool set: resolve the
key via getApiKey, then run the backend request with it. -/
def authenticatedToolCall {R : Type} (globalApiKey : String)
    (toolApiKey : Option String) (run : String → R) : Except String R :=
  (getApiKey globalApiKey toolApiKey).map run

/-- C10: getApiKey ignores its per-call argument entirely; with a configured
global key it returns that key, and with no global key every authenticated
tool call fails with the API-key-required error even when the caller passed
an apiKey argument. -/
theorem getApiKey_ignores_argument :
    (∀ (globalApiKey : String) (a1 a2 : Option String),
      getApiKey globalApiKey a1 = getApiKey globalApiKey a2) ∧
    (∀ (globalApiKey : String) (a : Option String), ¬ globalApiKey = "" →
      getApiKey globalApiKey a = Except.ok globalApiKey) ∧
    (∀ (R : Type) (a : Option String) (run : String → R),
      authenticatedToolCall "" a run =
        Except.error
          "API key is required. Pass --api_key when starting the MCP server.") := by
  refine ⟨fun g a1 a2 => rfl, fun g a h => by simp [getApiKey, h],
    fun R a run => rfl⟩

/-- Witness for C10 with a configured key and a supplied per-call argument:
the global key wins. -/
theorem getApiKey_ignores_argument_witness :
    getApiKey "secret" (some "caller-supplied") = Except.ok "secret" := by
  exact getApiKey_ignores_argument.2.1 "secret" (some "caller-supplied") (by decide)

end Insforge
